import Mathlib

/-!
Verification of the shell-like tokenizer in qutebrowser/utils/split.py: a
fork of shlex.split consisting of a character-by-character lexer (the
ShellLexer.__iter__ generator) and a post-processing splitter (the split
function) that merges whitespace-only fragments into the following token.

Python strings are modelled as `List Char`; the generator is modelled as a
step function over an explicit state record, folded over the input while
collecting the yielded fragments in order.
-/

namespace ShellSplit

/-- The single-quote character (code point 39). -/
def squote : Char := Char.ofNat 39

/-- The double-quote character (code point 34). -/
def dquote : Char := Char.ofNat 34

/-- The backslash character (code point 92). -/
def bslash : Char := Char.ofNat 92

/-- The opening-brace character of the placeholder marker (code point 123). -/
def lbrace : Char := Char.ofNat 123

/-- The closing-brace character of the placeholder marker (code point 125). -/
def rbrace : Char := Char.ofNat 125

/-- The whitespace set of ShellLexer.__init__: space, tab, carriage return. -/
def whitespace : List Char := [' ', '\t', '\r']

/-- The quote set of ShellLexer.__init__: single quote and double quote. -/
def quotes : List Char := [squote, dquote]

/-- The escape set of ShellLexer.__init__: the backslash alone. -/
def escapeChars : List Char := [bslash]

/-- The escapedquotes set of ShellLexer.__init__: the double quote alone. -/
def escapedquotes : List Char := [dquote]

/-- The mutable fields of ShellLexer that the reset method touches: quoted,
escapedstate, token and state.  As in the Python source, state is a
character: space (idle), the letter a (word), a quote character, or the
escape character; escapedstate records the state to resume after an
escape. -/
structure LexerState where
  quoted : Bool
  escapedstate : Char
  token : List Char
  state : Char
deriving DecidableEq, Repr

/-- The reset method of ShellLexer: fresh scanning state. -/
def resetState : LexerState :=
  { quoted := false, escapedstate := ' ', token := [], state := ' ' }

/-- One iteration of the character loop of ShellLexer.__iter__, for a lexer
configured with flags `keep` and `placeholder`.  Returns the successor state
together with the list of fragments yielded while consuming this character
(zero, one, or two fragments). -/
def lexStep (keep placeholder : Bool) (st : LexerState) (c : Char) :
    LexerState × List (List Char) :=
  if st.state = ' ' then
    -- idle state; in keep mode the character is first appended verbatim
    let tok0 := if keep && !placeholder then st.token ++ [c] else st.token
    if c ∈ whitespace then
      let tok1 := if placeholder then tok0 ++ [c] else tok0
      if tok1 ≠ [] ∨ st.quoted then
        (resetState, [tok1])
      else
        ({ st with token := tok1 }, [])
    else if c ∈ escapeChars then
      ({ st with token := tok0, escapedstate := 'a', state := c }, [])
    else if c ∈ quotes then
      let tok1 := if placeholder then tok0 ++ [c] else tok0
      ({ st with token := tok1, state := c }, [])
    else
      let tok1 := if placeholder then [lbrace, rbrace] else [c]
      ({ st with token := tok1, state := 'a' }, [])
  else if st.state ∈ quotes then
    -- quoted state; the source sets the quoted flag before branching
    if c = st.state then
      let tok0 := if placeholder then st.token ++ [lbrace, rbrace] else st.token
      let tok1 := if keep then tok0 ++ [c] else tok0
      ({ st with quoted := true, token := tok1, state := 'a' }, [])
    else if c ∈ escapeChars ∧ st.state ∈ escapedquotes then
      let tok0 := if keep && !placeholder then st.token ++ [c] else st.token
      ({ st with quoted := true, token := tok0,
                 escapedstate := st.state, state := c }, [])
    else if !placeholder then
      ({ st with quoted := true, token := st.token ++ [c] }, [])
    else
      ({ st with quoted := true }, [])
  else if st.state ∈ escapeChars then
    -- escaped state: re-append the escape character when it did not form a
    -- valid escape sequence inside a quote (non-keep mode only)
    let tok0 :=
      if st.escapedstate ∈ quotes ∧ c ≠ st.state ∧ c ≠ st.escapedstate ∧ keep = false
      then st.token ++ [st.state]
      else st.token
    let tok1 := if !placeholder then tok0 ++ [c] else tok0
    ({ st with token := tok1, state := st.escapedstate }, [])
  else if st.state = 'a' then
    -- word state
    if c ∈ whitespace then
      if st.token ≠ [] ∨ st.quoted then
        (resetState, if keep then [st.token, [c]] else [st.token])
      else
        ({ st with state := ' ' }, if keep then [[c]] else [])
    else if c ∈ quotes then
      let tok0 := if keep then st.token ++ [c] else st.token
      ({ st with token := tok0, state := c }, [])
    else if c ∈ escapeChars then
      let tok0 := if keep && !placeholder then st.token ++ [c] else st.token
      ({ st with token := tok0, escapedstate := 'a', state := c }, [])
    else if !placeholder then
      ({ st with token := st.token ++ [c] }, [])
    else
      (st, [])
  else
    (st, [])

/-- The code after the character loop of ShellLexer.__iter__: resolve a
trailing escape in non-keep mode, then yield a pending token. -/
def lexFinish (keep : Bool) (st : LexerState) : List (List Char) :=
  let tok0 :=
    if st.state ∈ escapeChars ∧ keep = false then st.token ++ [st.state] else st.token
  if tok0 ≠ [] ∨ st.quoted then [tok0] else []

/-- Fold `lexStep` over the input, collecting all yielded fragments. -/
def lexRun (keep placeholder : Bool) :
    LexerState → List Char → LexerState × List (List Char)
  | st, [] => (st, [])
  | st, c :: cs =>
    let p := lexStep keep placeholder st c
    let q := lexRun keep placeholder p.1 cs
    (q.1, p.2 ++ q.2)

/-- All fragments produced by one full scan of the input, as in list(lexer). -/
def lexTokens (keep placeholder : Bool) (s : List Char) : List (List Char) :=
  let r := lexRun keep placeholder resetState s
  r.2 ++ lexFinish keep r.1

/-- The isspace test of Python on a single character: true for the
ASCII and Unicode whitespace code points (space, tab, newline, carriage
return, vertical tab, form feed, the file, group, record and unit
separators, next line, and the Unicode space separators). -/
def pyIsSpaceChar (c : Char) : Bool :=
  c == ' ' || c == '\t' || c == '\n' || c == '\r' ||
  c == Char.ofNat 11 || c == Char.ofNat 12 ||
  c == Char.ofNat 28 || c == Char.ofNat 29 || c == Char.ofNat 30 || c == Char.ofNat 31 ||
  c == Char.ofNat 133 || c == Char.ofNat 160 || c == Char.ofNat 5760 ||
  (decide (8192 ≤ c.toNat) && decide (c.toNat ≤ 8202)) ||
  c == Char.ofNat 8232 || c == Char.ofNat 8233 || c == Char.ofNat 8239 ||
  c == Char.ofNat 8287 || c == Char.ofNat 12288

/-- The isspace method of Python strings: non-empty and every character is
whitespace. -/
def pyIsSpace (t : List Char) : Bool :=
  !t.isEmpty && t.all pyIsSpaceChar

/-- The fragment-merging loop of the split function: purely-whitespace
fragments are accumulated into `spaces` and prefixed onto the next real
token; a trailing non-empty `spaces` buffer is emitted as one final
token. -/
def mergeLoop : List (List Char) → List Char → List (List Char)
  | [], spaces => if spaces ≠ [] then [spaces] else []
  | t :: ts, spaces =>
    if pyIsSpace t then mergeLoop ts (spaces ++ t)
    else (spaces ++ t) :: mergeLoop ts []

/-- The keep flag handed to the lexer by the split function: placeholder
mode forces it to true, otherwise the keep argument of the caller is used
verbatim. -/
def lexerKeepFlag (keep placeholder : Bool) : Bool :=
  if placeholder then true else keep

/-- The split function of qutebrowser/utils/split.py, with the default
argument values of the source. -/
def split (s : List Char) (keep : Bool := false) (placeholder : Bool := false) :
    List (List Char) :=
  let tokens := lexTokens (lexerKeepFlag keep placeholder) placeholder s
  if tokens = [] then [] else mergeLoop tokens []

/-- String-level wrapper of `split` for readable statements. -/
def splitString (s : String) (keep : Bool := false) (placeholder : Bool := false) :
    List String :=
  (split s.data keep placeholder).map String.mk

/-- Bool-valued check that `pat` occurs as a contiguous subsequence of the
second argument. -/
def containsSeq (pat : List Char) : List Char → Bool
  | [] => pat.isEmpty
  | c :: cs => pat.isPrefixOf (c :: cs) || containsSeq pat cs

/-- States reachable by the lexer, with the bookkeeping facts needed for the
keep-mode round-trip: the state and resume-state characters range over the
five sentinel values, the accumulator is empty in the idle state, and an
escape state always has a real state to resume. -/
def Inv (st : LexerState) : Prop :=
  (st.state = ' ' ∨ st.state = 'a' ∨ st.state = squote ∨ st.state = dquote ∨
    st.state = bslash) ∧
  (st.escapedstate = ' ' ∨ st.escapedstate = 'a' ∨ st.escapedstate = squote ∨
    st.escapedstate = dquote) ∧
  (st.state = ' ' → st.token = []) ∧
  (st.state = bslash → st.escapedstate ≠ ' ')

lemma inv_resetState : Inv resetState := by
  refine ⟨Or.inl rfl, Or.inl rfl, fun _ => rfl, fun h => absurd h (by decide)⟩

lemma lexStep_keep_inv (st : LexerState) (c : Char) (h : Inv st) :
    (lexStep true false st c).2.flatten ++ (lexStep true false st c).1.token =
      st.token ++ [c] ∧ Inv (lexStep true false st c).1 := by
  obtain ⟨hdom, hedom, htok, hesc⟩ := h
  simp only [lexStep]
  split_ifs <;>
    simp_all [Inv, resetState, whitespace, quotes, escapeChars, escapedquotes] <;>
    simp_all +decide [squote, dquote, bslash] <;>
    try tauto
  obtain hq | hq := ‹c = Char.ofNat 39 ∨ c = Char.ofNat 34› <;> subst hq <;>
    simp +decide

lemma lexRun_keep_inv : ∀ (cs : List Char) (st : LexerState), Inv st →
    (lexRun true false st cs).2.flatten ++ (lexRun true false st cs).1.token =
      st.token ++ cs ∧ Inv (lexRun true false st cs).1 := by
  intro cs
  induction cs with
  | nil => intro st h; simpa [lexRun] using h
  | cons c cs ih =>
    intro st h
    have hstep := lexStep_keep_inv st c h
    have hrest := ih (lexStep true false st c).1 hstep.2
    refine ⟨?_, by simpa [lexRun] using hrest.2⟩
    have hsnd : (lexRun true false st (c :: cs)).2 =
        (lexStep true false st c).2 ++
          (lexRun true false (lexStep true false st c).1 cs).2 := by
      simp [lexRun]
    rw [hsnd]
    have hfst : (lexRun true false st (c :: cs)).1 =
        (lexRun true false (lexStep true false st c).1 cs).1 := by
      simp [lexRun]
    rw [hfst, List.flatten_append, List.append_assoc, hrest.1, ← List.append_assoc,
      hstep.1, List.append_assoc]
    simp

lemma lexTokens_keep_flatten (s : List Char) : (lexTokens true false s).flatten = s := by
  have h := (lexRun_keep_inv s resetState inv_resetState).1
  have h' : (lexRun true false resetState s).2.flatten ++
      (lexRun true false resetState s).1.token = s := by simpa [resetState] using h
  unfold lexTokens lexFinish
  have hfalse : ((lexRun true false resetState s).1.state ∈ escapeChars ∧
      ((true : Bool) = false)) ↔ False := by simp
  rw [List.flatten_append]
  simp only [hfalse, if_false]
  split_ifs with hc
  · simpa using h'
  · have htok : (lexRun true false resetState s).1.token = [] := by
      by_contra hne
      exact hc (Or.inl hne)
    simpa [htok] using h'

lemma mergeLoop_flatten : ∀ (ts : List (List Char)) (spaces : List Char),
    (mergeLoop ts spaces).flatten = spaces ++ ts.flatten := by
  intro ts
  induction ts with
  | nil =>
    intro spaces
    unfold mergeLoop
    split_ifs with h
    · simp
    · simp [of_not_not (by simpa using h)]
  | cons t ts ih =>
    intro spaces
    unfold mergeLoop
    split_ifs with h
    · rw [ih]; simp
    · simp [ih]

/-- C1: for every input string, concatenating in order all tokens returned
by `split` with keep set to true and placeholder set to false reproduces
the input exactly.  This holds for all inputs, in particular also in the
unterminated-quote and trailing-escape edge cases. -/
theorem roundtrip_keep_flatten (s : List Char) :
    (split s true false).flatten = s := by
  simp only [split, lexerKeepFlag, Bool.false_eq_true, if_false]
  split_ifs with h
  · rw [← lexTokens_keep_flatten s, h]
  · rw [mergeLoop_flatten, List.nil_append, lexTokens_keep_flatten]

/-- C2 counterexample: with keep set to true, splitting the source text
"echo \"a b\" c" does not return the three tokens "echo", "\"a b\"", "c" —
the splitter attaches the pending inter-token whitespace as a prefix of the
following token. -/
theorem split_keep_example_ne_spec :
    splitString "echo \"a b\" c" true false ≠ ["echo", "\"a b\"", "c"] := by decide

/-- C2 amended: with keep set to true, splitting "echo \"a b\" c" returns
the tokens "echo", " \"a b\"", " c": quote characters are preserved and
each inter-token space is reattached as a prefix of the following token. -/
theorem split_keep_example_eval :
    splitString "echo \"a b\" c" true false = ["echo", " \"a b\"", " c"] := by decide

/-- C3 counterexample: the literal text "gvim" occurs in the input
"gvim -f \"\x7b\x7d\"" but, when that input is split in placeholder mode,
in none of the returned tokens — placeholder mode collapses every word to
the marker, so the text "gvim -f" does not remain intact in the returned
token sequence. -/
theorem placeholder_example_drops_words :
    containsSeq ("gvim").data (("gvim -f \"\x7b\x7d\"").data) = true ∧
    containsSeq ("gvim").data
      ((split (("gvim -f \"\x7b\x7d\"").data) false true).flatten) = false := by decide

/-- C3 amended: splitting "gvim -f \"\x7b\x7d\"" in placeholder mode
returns the tokens "\x7b\x7d", " \x7b\x7d", " \"\x7b\x7d\"": every word
and quoted segment collapses to the two-character marker, while quote
characters and inter-token whitespace remain intact in order; in particular
the last token is the quoted segment reduced to the marker surrounded by
its quote characters. -/
theorem placeholder_example_eval :
    splitString "gvim -f \"\x7b\x7d\"" false true =
      ["\x7b\x7d", " \x7b\x7d", " \"\x7b\x7d\""] := by decide

/-- C4: `split` with placeholder set to true forces the keep flag of the
lexer on regardless of the keep argument of the caller (so the result does
not depend on it), and with placeholder set to false the keep flag of the
lexer is exactly the keep argument of the caller. -/
theorem placeholder_forces_keep :
    ∀ keep : Bool, lexerKeepFlag keep true = true ∧
      lexerKeepFlag keep false = keep ∧
      ∀ s : List Char, split s keep true = split s true true := by
  intro keep
  exact ⟨rfl, rfl, fun s => rfl⟩

/-- C5: `split` is a total function of its input and flags; an unterminated
quote yields the partial quoted content as the final token (splitting the
four characters quote, a, b, c with default flags gives the single token
"abc"), and a trailing escape character is resolved to a literal escape
appended to the final token when keep is false (splitting the two
characters a, backslash gives the single token a-backslash). -/
theorem split_total_edge_cases :
    (∀ (s : List Char) (keep placeholder : Bool),
      ∃ ts, split s keep placeholder = ts) ∧
    split (squote :: ("abc").data) false false = [("abc").data] ∧
    split (("a").data ++ [bslash]) false false = [("a").data ++ [bslash]] := by
  refine ⟨fun s k p => ⟨_, rfl⟩, by decide, by decide⟩

/-- C6: backslash escapes inside double-quoted segments but is a literal
character inside single-quoted segments: with default flags, the input
dquote a backslash dquote b dquote splits to the single token a dquote b,
and the input squote a backslash b squote splits to the single token
a backslash b. -/
theorem escape_semantics_quotes :
    split [dquote, 'a', bslash, dquote, 'b', dquote] false false =
      [['a', dquote, 'b']] ∧
    split [squote, 'a', bslash, 'b', squote] false false =
      [['a', bslash, 'b']] := by decide

/-- C7: a single token may span quoted and unquoted segments: splitting
"a\"b c\"d" with default flags returns exactly the one token "ab cd". -/
theorem mixed_quoted_unquoted_token :
    splitString "a\"b c\"d" false false = ["ab cd"] := by decide

/-- C8: splitting "echo \"a b\" c" with default flags returns exactly the
tokens "echo", "a b", "c": quote characters are removed and unquoted
whitespace separates tokens. -/
theorem split_quote_removal :
    splitString "echo \"a b\" c" false false = ["echo", "a b", "c"] := by decide

/-- C9: the empty input splits to the empty list, a whitespace-only input
splits to the empty list when keep is false, and to the single token "  "
when keep is true — a trailing pending-whitespace buffer with no following
token is emitted as one final token. -/
theorem split_whitespace_only :
    splitString "" false false = [] ∧
    splitString "  " false false = [] ∧
    splitString "  " true false = ["  "] := by decide

/-- C10: an input that is only an empty quoted segment produces exactly one
empty-string token with default flags, both for a single-quoted and for a
double-quoted empty segment. -/
theorem split_empty_quoted_token :
    split [squote, squote] false false = [[]] ∧
    split [dquote, dquote] false false = [[]] := by decide

end ShellSplit
